import Mathlib

/-!
Verification of the metadata core of the ACGN Camerata livestream analytics
repository: the streamer registry (src/config/streamer_registry.py) and the
filename scanner (src/utils/file_scanner.py), embedded shallowly.

Python dictionaries are modelled as insertion-ordered association lists, as
Python guarantees insertion order and key uniqueness.  Operations that can
raise an uncaught Python exception return Option or Except, with none/error
standing for the exception escaping the public boundary.
-/

namespace Camerata

/-- JSON values as produced by Python json.load.  Numbers are modelled as
integers; no claim depends on fractional numeric payloads.  An obj is the
insertion-ordered key/value list of a parsed JSON object. -/
inductive Json where
  | null
  | bool (b : Bool)
  | num (n : Int)
  | str (s : String)
  | arr (xs : List Json)
  | obj (kvs : List (String × Json))
deriving Repr

/-- Python dict-key equality restricted to the hashable JSON scalars.
Containers (arr, obj) are unhashable in Python: using one as a dict key
raises TypeError, which rowKey models as failure, so keyEq never has to
compare them as equal.  The Python curiosity that True == 1 is not modelled;
no registry value mixes booleans and numbers as keys. -/
def keyEq : Json → Json → Bool
  | .null, .null => true
  | .bool a, .bool b => a == b
  | .num a, .num b => a == b
  | .str a, .str b => a == b
  | _, _ => false

/-- Whether a JSON value is usable as a Python dict key (hashable). -/
def hashable : Json → Bool
  | .arr _ => false
  | .obj _ => false
  | _ => true

/-- The in-memory cache of StreamerRegistry: a Python dict from uid keys to
profile dicts, as an insertion-ordered association list.  Keys are Json
because reload of a canonical document keys the cache by whatever each
element's uid field holds. -/
abbrev Cache := List (Json × Json)

/-- Membership in a string-keyed JSON object, first match (parsed Python
dicts have unique keys). -/
def lookupField (k : String) : List (String × Json) → Option Json
  | [] => none
  | kv :: rest => if kv.1 = k then some kv.2 else lookupField k rest

/-- Python d.get(k) / d[k] on the cache. -/
def lookupJ (k : Json) : Cache → Option Json
  | [] => none
  | kv :: rest => if keyEq k kv.1 then some kv.2 else lookupJ k rest

/-- Python d[k] = v on the cache: replace in place when the key is present,
append otherwise (dict insertion-order semantics). -/
def insertJ (k v : Json) : Cache → Cache
  | [] => [(k, v)]
  | kv :: rest => if keyEq k kv.1 then (kv.1, v) :: rest else kv :: insertJ k v rest

/-- In-place mutation of the value stored under a key, as done by
self cache at uid getting a field assigned (the dict object is mutated where
it sits, so its position and key are unchanged). -/
def updateAt (k : Json) (f : Json → Json) : Cache → Cache
  | [] => []
  | kv :: rest => if keyEq k kv.1 then (kv.1, f kv.2) :: rest else kv :: updateAt k f rest

/-- Python d[k] = v on a string-keyed JSON object: replace in place when
present, append otherwise. -/
def setEntry (k : String) (v : Json) : List (String × Json) → List (String × Json)
  | [] => [(k, v)]
  | kv :: rest => if kv.1 = k then (kv.1, v) :: rest else kv :: setEntry k v rest

/-- Field assignment on a profile value.  Cache values are always JSON
objects (both reload branches and register_new_streamer only ever store
objects), so the non-object case is unreachable and returned unchanged. -/
def setField (k : String) (v : Json) : Json → Json
  | .obj kvs => .obj (setEntry k v kvs)
  | j => j

/-- The structural check of reload case B: isinstance(v, dict) and 'uid' in v. -/
def isProfileShaped : Json → Bool
  | .obj kvs => (lookupField "uid" kvs).isSome
  | _ => false

/-- The dict-comprehension key s['uid'] of reload case A.  none models the
uncaught exception: KeyError when 'uid' is missing, TypeError when the
element is not a dict or its uid value is unhashable. -/
def rowKey : Json → Option Json
  | .obj kvs =>
    match lookupField "uid" kvs with
    | some v => if hashable v then some v else none
    | none => none
  | _ => none

/-- The dict comprehension of reload case A, building the cache from the
streamers array; acc is the dict built so far.  none propagates the
exception of rowKey. -/
def buildFromList (acc : Cache) : List Json → Option Cache
  | [] => some acc
  | s :: rest =>
    match rowKey s with
    | some k => buildFromList (insertJ k s acc) rest
    | none => none

/-- On-disk states of the backing store distinguished by reload: the file is
absent (FileNotFoundError), its text is not valid JSON (JSONDecodeError), or
it parses to a JSON document. -/
inductive DiskState where
  | missing
  | malformed
  | doc (j : Json)

/-- Embeds StreamerRegistry.reload.  Returns the new cache; none models an
exception escaping reload (only possible from the case-A dict
comprehension, whose KeyError/TypeError are not in the except clause). -/
def reload : DiskState → Option Cache
  | .missing => some []
  | .malformed => some []
  | .doc (Json.obj kvs) =>
    match lookupField "streamers" kvs with
    | some (Json.arr xs) => buildFromList [] xs
    | some _ => some []
    | none =>
      if kvs.all (fun kv => isProfileShaped kv.2) then
        some (kvs.map (fun kv => (Json.str kv.1, kv.2)))
      else
        some []
  | .doc _ => some []

/-- Embeds StreamerRegistry.save: the canonical document written to disk,
holding the cache values in order. -/
def save (c : Cache) : Json :=
  Json.obj [("streamers", Json.arr (c.map Prod.snd))]

/-- Embeds StreamerRegistry.get_streamer. -/
def get_streamer (c : Cache) (uid : String) : Option Json :=
  lookupJ (Json.str uid) c

/-- The fixed palette _default_colors, in source order. -/
def default_colors : List String :=
  ["#FF6B6B", "#4ECDC4", "#45B7D1", "#96CEB4", "#FFEEAD",
   "#D4A5A5", "#9B59B6", "#3498DB", "#E67E22", "#2ECC71"]

/-- Sum of the character codes of the uid string (Python ord equals the
Unicode code point, which is Char.toNat). -/
def charSum (uid : String) : Nat :=
  (uid.data.map Char.toNat).sum

/-- Embeds StreamerRegistry._pick_random_color. -/
def pick_random_color (uid : String) : String :=
  default_colors.getD (charSum uid % default_colors.length) ""

/-- The generated placeholder display name of register_new_streamer. -/
def default_name (uid : String) : String := "主播_" ++ uid

/-- Embeds StreamerRegistry.register_new_streamer.  The timestamp is passed
in because datetime.now is ambient input.  Returns the new cache, the new
profile, and the number of persistence writes performed (save is called
once; whether the disk write succeeds is irrelevant to the write count). -/
def register_new_streamer (c : Cache) (uid : String) (name : Option String) (ts : String) :
    Cache × Json × Nat :=
  let n :=
    match name with
    | some s => if s = "" then default_name uid else s
    | none => default_name uid
  let p : Json := Json.obj
    [("name", Json.str n), ("uid", Json.str uid),
     ("color", Json.str (pick_random_color uid)), ("created_at", Json.str ts)]
  (insertJ (Json.str uid) p c, p, 1)

/-- Embeds StreamerRegistry.get_or_register. -/
def get_or_register (c : Cache) (uid : String) (name : Option String) (ts : String) :
    Cache × Json × Nat :=
  match lookupJ (Json.str uid) c with
  | some p => (c, p, 0)
  | none => register_new_streamer c uid name ts

/-- Python truthiness of an optional string argument: None and the empty
string are falsy. -/
def truthy : Option String → Bool
  | some s => !(s = "")
  | none => false

/-- One optional-field branch of update_streamer_info: assign the field on
the cached profile when the argument is truthy, otherwise leave the cache
alone. -/
def applyOpt (field : String) (v : Option String) (uid : String) (c : Cache) : Cache :=
  match v with
  | none => c
  | some s => if s = "" then c else updateAt (Json.str uid) (setField field (Json.str s)) c

/-- Embeds StreamerRegistry.update_streamer_info.  Returns the new cache and
the number of persistence writes (save is called once exactly when a field
argument was truthy and the uid was present). -/
def update_streamer_info (c : Cache) (uid : String) (nm co : Option String) : Cache × Nat :=
  match lookupJ (Json.str uid) c with
  | none => (c, 0)
  | some _ =>
    let c2 := applyOpt "color" co uid (applyOpt "name" nm uid c)
    (c2, if truthy nm || truthy co then 1 else 0)

/-- Pairwise distinctness of cache keys under dict-key equality; an
invariant of every cache a Python dict can represent. -/
def keysDistinct : Cache → Bool
  | [] => true
  | kv :: rest => rest.all (fun kv2 => !(keyEq kv.1 kv2.1)) && keysDistinct rest

/-!  The FileScanner side.  -/

/-- The scan result record FileMeta of src/utils/file_scanner.py. -/
structure FileMeta where
  file_path : String
  file_name : String
  file_type : String
  uid : String
  date_str : String
  file_size : Nat
deriving DecidableEq, Repr

/-- Lexicographic code-point comparison of character lists: exactly the
comparison Python uses on str keys in list.sort. -/
def charsLe : List Char → List Char → Bool
  | [], _ => true
  | _ :: _, [] => false
  | a :: as, b :: bs =>
    if a.toNat < b.toNat then true
    else if b.toNat < a.toNat then false
    else charsLe as bs

/-- The sort key of FileScanner.scan: compare records by file_name. -/
def nameLe (x y : FileMeta) : Bool :=
  charsLe x.file_name.data y.file_name.data

/-- Maximal leading run of decimal digits, with the rest of the input.
Python's backslash-d is Unicode-aware; the claims and the repository only
use ASCII digit filenames, which Char.isDigit captures. -/
def digitSpan : List Char → List Char × List Char
  | [] => ([], [])
  | c :: cs =>
    if c.isDigit then
      let r := digitSpan cs
      (c :: r.1, r.2)
    else ([], c :: cs)

/-- Python int() on a digit string. -/
def digitsToNat (cs : List Char) : Nat :=
  cs.foldl (fun a c => a * 10 + (c.toNat - 48)) 0

/-- Python format specifier 02d for the month/day values (which are at most
two digits, hence below 100). -/
def pad2 (n : Nat) : String :=
  if n < 10 then "0" ++ toString n else toString n

/-- Case-insensitive match of the literal extension tail of the pattern.
re.IGNORECASE lets the letters match either case, and the final dollar
anchor also matches just before one trailing newline. -/
def extMatches (target cs : List Char) : Bool :=
  cs.map Char.toLower == target || cs.map Char.toLower == target ++ ['\n']

def logExtChars : List Char := ['.', 'l', 'o', 'g']

def csvExtChars : List Char := ['.', 'c', 's', 'v']

/-- Embeds LOG_PATTERN matching on a filename.  The regex is anchored and
its separators are not digits, so backtracking can never shift a group
boundary: each digit group is the maximal digit run at its position, and a
match requires the run lengths 1 or more for the uid, exactly 4 for the
year, and 1 or 2 for month and day, followed by the literal separators and
extension.  Returns the uid, year, month, day character groups. -/
def matchLog (cs : List Char) : Option (List Char × List Char × List Char × List Char) :=
  match digitSpan cs with
  | (u, '_' :: r1) =>
    if u.isEmpty then none else
    match digitSpan r1 with
    | (y, '-' :: r2) =>
      if y.length == 4 then
        match digitSpan r2 with
        | (m, '-' :: r3) =>
          if m.length == 1 || m.length == 2 then
            match digitSpan r3 with
            | (d, r4) =>
              if (d.length == 1 || d.length == 2) && extMatches logExtChars r4 then
                some (u, y, m, d)
              else none
          else none
        | _ => none
      else none
    | _ => none
  | _ => none

/-- Embeds CSV_PATTERN matching on a filename, in the same way. -/
def matchCsv (cs : List Char) : Option (List Char × List Char × List Char) :=
  match digitSpan cs with
  | (u, '_' :: r1) =>
    if u.isEmpty then none else
    match digitSpan r1 with
    | (y, '-' :: r2) =>
      if y.length == 4 then
        match digitSpan r2 with
        | (m, r3) =>
          if (m.length == 1 || m.length == 2) && extMatches csvExtChars r3 then
            some (u, y, m)
          else none
      else none
    | _ => none
  | _ => none

/-- Embeds the classification part of FileScanner._parse_file: try the log
pattern first, then the csv pattern; produce the file_type, the uid group
as written, and the zero-padded date string. -/
def classifyCore (cs : List Char) : Option (String × String × String) :=
  match matchLog cs with
  | some (u, y, m, d) =>
    some ("log", String.mk u,
      String.mk y ++ "-" ++ pad2 (digitsToNat m) ++ "-" ++ pad2 (digitsToNat d))
  | none =>
    match matchCsv cs with
    | some (u, y, m) =>
      some ("csv", String.mk u, String.mk y ++ "-" ++ pad2 (digitsToNat m))
    | none => none

/-- Classification of a base filename. -/
def classifyName (file_name : String) : Option (String × String × String) :=
  classifyCore file_name.data

/-- One filesystem entry visited by the scan: its path, its base name, and
the result of os.path.getsize, where none models the call raising OSError
(unstattable entry, for example a broken symlink). -/
structure FSEntry where
  path : String
  name : String
  stat : Option Nat
deriving Repr

/-- The record built by FileScanner._parse_file for one entry. -/
def toMeta (path nm : String) (sz : Nat) : Option FileMeta :=
  (classifyName nm).map fun r =>
    { file_path := path, file_name := nm, file_type := r.1,
      uid := r.2.1, date_str := r.2.2, file_size := sz }

/-- Embeds FileScanner._parse_file.  The size is obtained before any
pattern matching, so a failing stat raises even for an unrelated file;
error models the uncaught OSError. -/
def parse_file (e : FSEntry) : Except Unit (Option FileMeta) :=
  match e.stat with
  | none => Except.error ()
  | some sz => Except.ok (toMeta e.path e.name sz)

/-- The gathering loop of FileScanner.scan over the entries the directory
walk yields, in traversal order.  The first entry whose parse raises aborts
the whole scan, as the loop has no exception handler. -/
def scanGather : List FSEntry → Except Unit (List FileMeta)
  | [] => Except.ok []
  | e :: rest =>
    match parse_file e with
    | Except.error _ => Except.error ()
    | Except.ok m =>
      match scanGather rest with
      | Except.error _ => Except.error ()
      | Except.ok ms => Except.ok (m.toList ++ ms)

/-- Stable insertion of a record into a list sorted by nameLe, placing the
new record after every record less than or equal to it. -/
def insertSorted (x : FileMeta) : List FileMeta → List FileMeta
  | [] => [x]
  | y :: ys => if nameLe y x then y :: insertSorted x ys else x :: y :: ys

/-- Stable sort by file_name.  Python's list.sort is a stable sort by the
key, and the stable sort of a list by a total preorder is unique, so any
stable sorting algorithm is extensionally the one the source uses. -/
def sortByName : List FileMeta → List FileMeta
  | [] => []
  | x :: xs => insertSorted x (sortByName xs)

/-- Embeds FileScanner.scan on a directory: parse every visited entry in
traversal order, then sort the collected records by file name. -/
def scan (es : List FSEntry) : Except Unit (List FileMeta) :=
  match scanGather es with
  | Except.error e => Except.error e
  | Except.ok ms => Except.ok (sortByName ms)

/-- Field projection on a profile value, for stating properties. -/
def fieldOf (f : String) : Json → Option Json
  | .obj kvs => lookupField f kvs
  | _ => none

/-- Whether a JSON value is an object. -/
def isObj : Json → Bool
  | .obj _ => true
  | _ => false

/-- Whether a JSON value is an array. -/
def isArr : Json → Bool
  | .arr _ => true
  | _ => false

/-- A legacy flat-map value whose uid field is the string 7. -/
def legacyProfile : Json := Json.obj [("uid", Json.str "7")]

/-- A legacy flat-map document whose single key differs from its value's
uid field. -/
def legacyDoc : Json := Json.obj [("alice", legacyProfile)]

/-- A canonical-shaped document whose streamers list holds a non-object
element; the reload dict comprehension raises TypeError on it. -/
def badCanonicalDoc : Json := Json.obj [("streamers", Json.arr [Json.num 42])]

/-- The cache a legacy load of legacyDoc produces. -/
def legacyCache : Cache := [(Json.str "alice", legacyProfile)]

/-- A canonical-shaped cache for the C2 witness. -/
def w2cache : Cache :=
  [(Json.str "1", Json.obj [("uid", Json.str "1"), ("name", Json.str "n")])]

/-- A one-profile cache for the C7 witness. -/
def w7cache : Cache :=
  [(Json.str "1", Json.obj [("name", Json.str "a"), ("uid", Json.str "1"),
    ("color", Json.str "#FF6B6B"), ("created_at", Json.str "t")])]

/-- The readable log entry of the C5 scenario. -/
def c5good : FSEntry := ⟨"/logs/1_2025-01-01.log", "1_2025-01-01.log", some 10⟩

/-- An entry whose os.path.getsize raises OSError. -/
def c5bad : FSEntry := ⟨"/logs/bad.log", "bad.log", none⟩

/-- What one entry contributes to a fully successful scan: its record when
its name matches a grammar, nothing otherwise.  Only meaningful when every
stat succeeded; scanGather_eq states the connection. -/
def entryMeta (e : FSEntry) : Option FileMeta :=
  match e.stat with
  | none => none
  | some sz => toMeta e.path e.name sz

/-- A directory listing for the C8 example, deliberately in unsorted
traversal order: one valid csv file, one unrelated file, one valid log
file. -/
def c8entries : List FSEntry :=
  [⟨"/d/5_2025-01.csv", "5_2025-01.csv", some 7⟩,
   ⟨"/d/readme.txt", "readme.txt", some 3⟩,
   ⟨"/d/5_2025-01-02.log", "5_2025-01-02.log", some 10⟩]

/-- The record of the log file in c8entries. -/
def c8metaLog : FileMeta :=
  ⟨"/d/5_2025-01-02.log", "5_2025-01-02.log", "log", "5", "2025-01-02", 10⟩

/-- The record of the csv file in c8entries. -/
def c8metaCsv : FileMeta :=
  ⟨"/d/5_2025-01.csv", "5_2025-01.csv", "csv", "5", "2025-01", 7⟩

/-!  Helper lemmas about the dict model.  -/

theorem keyEq_refl {k : Json} (h : hashable k = true) : keyEq k k = true := by
  cases k <;> simp_all [keyEq, hashable]

theorem lookupJ_insertJ_self {k : Json} (h : hashable k = true) (v : Json) (c : Cache) :
    lookupJ k (insertJ k v c) = some v := by
  induction c with
  | nil => simp [insertJ, lookupJ, keyEq_refl h]
  | cons kv rest ih =>
    by_cases hk : keyEq k kv.1 = true
    · simp [insertJ, hk, lookupJ]
    · simp only [Bool.not_eq_true] at hk
      simp [insertJ, hk, lookupJ, ih]

theorem get_or_register_of_found {c : Cache} {uid : String} {p : Json}
    (h : lookupJ (Json.str uid) c = some p) (n : Option String) (t : String) :
    get_or_register c uid n t = (c, p, 0) := by
  simp [get_or_register, h]

theorem get_or_register_of_missing {c : Cache} {uid : String}
    (h : lookupJ (Json.str uid) c = none) (n : Option String) (t : String) :
    get_or_register c uid n t = register_new_streamer c uid n t := by
  simp [get_or_register, h]

theorem lookupJ_register (c : Cache) (uid : String) (n : Option String) (t : String) :
    lookupJ (Json.str uid) (register_new_streamer c uid n t).1
      = some (register_new_streamer c uid n t).2.1 :=
  lookupJ_insertJ_self (k := Json.str uid) rfl _ c

/-!  Claims.  -/

/-- Claim C3: get_or_register called twice for the same uid returns the same
profile content the second time, leaves a profile for the uid present in the
cache after either call, and performs at most one persistence write in total
for a previously-unseen uid, with the second call performing none. -/
theorem c3_get_or_register_idempotent (c : Cache) (uid : String)
    (n1 n2 : Option String) (t1 t2 : String) :
    (get_or_register (get_or_register c uid n1 t1).1 uid n2 t2).2.1
        = (get_or_register c uid n1 t1).2.1 ∧
    lookupJ (Json.str uid) (get_or_register c uid n1 t1).1
        = some (get_or_register c uid n1 t1).2.1 ∧
    lookupJ (Json.str uid) (get_or_register (get_or_register c uid n1 t1).1 uid n2 t2).1
        = some (get_or_register c uid n1 t1).2.1 ∧
    (get_or_register c uid n1 t1).2.2
        + (get_or_register (get_or_register c uid n1 t1).1 uid n2 t2).2.2 ≤ 1 := by
  cases h : lookupJ (Json.str uid) c with
  | some p =>
    rw [get_or_register_of_found h n1 t1]
    rw [get_or_register_of_found (p := p) h n2 t2]
    exact ⟨rfl, h, h, Nat.zero_le 1⟩
  | none =>
    rw [get_or_register_of_missing h n1 t1]
    have h2 := lookupJ_register c uid n1 t1
    rw [get_or_register_of_found h2 n2 t2]
    exact ⟨rfl, h2, h2, Nat.le_refl 1⟩

/-- Claim C10: an empty-string argument is treated as absent.  Registering
with the empty name produces exactly the profile the no-name call produces,
with the generated placeholder name, and updating with empty name and color
changes nothing and performs no persistence write. -/
theorem c10_empty_string_as_absent (c : Cache) (uid ts : String) :
    register_new_streamer c uid (some "") ts = register_new_streamer c uid none ts ∧
    fieldOf "name" (register_new_streamer c uid (some "") ts).2.1
      = some (Json.str (default_name uid)) ∧
    update_streamer_info c uid (some "") (some "") = (c, 0) := by
  refine ⟨rfl, rfl, ?_⟩
  cases h : lookupJ (Json.str uid) c with
  | none => simp [update_streamer_info, h]
  | some p => simp [update_streamer_info, h, applyOpt, truthy]

/-- Claim C6: the color chosen at registration is the palette entry at index
charSum uid modulo 10 in the fixed 10-entry palette, and uids with equal
character-code sums receive the same color. -/
theorem c6_color_assignment :
    default_colors.length = 10 ∧
    (∀ (c : Cache) (uid : String) (name : Option String) (ts : String),
      fieldOf "color" (register_new_streamer c uid name ts).2.1
        = some (Json.str (default_colors.getD (charSum uid % 10) ""))) ∧
    (∀ u1 u2 : String, charSum u1 = charSum u2 →
      pick_random_color u1 = pick_random_color u2) := by
  refine ⟨rfl, fun c uid name ts => rfl, fun u1 u2 h => ?_⟩
  simp [pick_random_color, h]

/-- Witness for c6_color_assignment at two distinct uids with equal
character-code sums. -/
theorem c6_witness :
    charSum "ab" = charSum "ba" ∧ pick_random_color "ab" = pick_random_color "ba" :=
  ⟨by decide, c6_color_assignment.2.2 "ab" "ba" (by decide)⟩

/-- Claim C9: a legacy flat-map document whose values all pass the
profile-shape check loads as-is, keyed by its top-level keys, with no
re-keying by the uid field, so a cache key differing from its profile's uid
field is possible after a legacy load. -/
theorem c9_legacy_load_keys_as_given :
    (∀ kvs : List (String × Json),
      lookupField "streamers" kvs = none →
      kvs.all (fun kv => isProfileShaped kv.2) = true →
      reload (DiskState.doc (Json.obj kvs))
        = some (kvs.map (fun kv => (Json.str kv.1, kv.2)))) ∧
    reload (DiskState.doc legacyDoc) = some [(Json.str "alice", legacyProfile)] ∧
    fieldOf "uid" legacyProfile = some (Json.str "7") ∧
    Json.str "alice" ≠ Json.str "7" := by
  refine ⟨fun kvs h1 h2 => ?_, rfl, rfl, ?_⟩
  · simp [reload, h1, h2]
  · intro h
    injection h with h2
    exact absurd h2 (by decide)

/-- Witness for c9_legacy_load_keys_as_given at the concrete legacy
document. -/
theorem c9_witness :
    reload (DiskState.doc legacyDoc) = some [(Json.str "alice", legacyProfile)] :=
  c9_legacy_load_keys_as_given.1 [("alice", legacyProfile)] rfl rfl

/-- Claim C1 (amended): reload tolerates a missing file, malformed JSON, a
non-object top level, an object whose streamers value is not a list, and an
object without a streamers key that fails the profile-shape check, setting
the cache to empty and returning normally; the claim's remaining case, a
canonical-shaped document whose streamers list holds a non-profile-shaped
element, instead raises out of reload (see c1_counterexample). -/
theorem c1_amended_reload_tolerance (d : DiskState)
    (h : d = DiskState.missing ∨ d = DiskState.malformed ∨
      (∃ j, d = DiskState.doc j ∧ isObj j = false) ∨
      (∃ kvs v, d = DiskState.doc (Json.obj kvs) ∧
        lookupField "streamers" kvs = some v ∧ isArr v = false) ∨
      (∃ kvs, d = DiskState.doc (Json.obj kvs) ∧
        lookupField "streamers" kvs = none ∧
        kvs.all (fun kv => isProfileShaped kv.2) = false)) :
    reload d = some [] := by
  rcases h with rfl | rfl | ⟨j, rfl, hj⟩ | ⟨kvs, v, rfl, hl, hv⟩ | ⟨kvs, rfl, hl, hp⟩
  · rfl
  · rfl
  · cases j <;> first | rfl | simp [isObj] at hj
  · cases v <;> simp_all [reload, isArr]
  · simp [reload, hl, hp]

/-- Counterexample to claim C1 as stated: a 'streamers' list with a
non-profile-shaped element is in the claim's tolerated class, yet reload
raises (TypeError from the dict comprehension) instead of emptying the
cache and returning. -/
theorem c1_counterexample : reload (DiskState.doc badCanonicalDoc) = none := rfl

/-- Witness for c1_amended_reload_tolerance at a non-object document. -/
theorem c1_witness : reload (DiskState.doc (Json.num 3)) = some [] :=
  c1_amended_reload_tolerance _ (Or.inr (Or.inr (Or.inl ⟨Json.num 3, rfl, rfl⟩)))

/-- Claim C5 (code behavior at the failing input): without the bad entry the
scan returns the matching record, but one unstattable entry aborts the whole
scan with an uncaught OSError — even when that entry's name matches no
grammar — instead of being skipped as the spec requires. -/
theorem c5_scan_aborts_on_unstattable :
    scan [c5good] = Except.ok
      [{ file_path := "/logs/1_2025-01-01.log", file_name := "1_2025-01-01.log",
         file_type := "log", uid := "1", date_str := "2025-01-01", file_size := 10 }] ∧
    scan [c5good, c5bad] = Except.error () ∧
    scan [⟨"/logs/readme.txt", "readme.txt", none⟩] = Except.error () :=
  ⟨rfl, rfl, rfl⟩

/-!  Round-trip machinery for claim C2.  -/

theorem insertJ_of_not_mem {k : Json} {acc : Cache}
    (h : ∀ kv ∈ acc, keyEq k kv.1 = false) (v : Json) :
    insertJ k v acc = acc ++ [(k, v)] := by
  induction acc with
  | nil => rfl
  | cons kv rest ih =>
    have h1 := h kv (by simp)
    simp [insertJ, h1, ih (fun kv2 h2 => h kv2 (by simp [h2]))]

theorem keyEq_symm {a b : Json} (h : keyEq a b = true) : keyEq b a = true := by
  cases a <;> cases b <;> simp_all [keyEq, beq_iff_eq]

theorem keyEq_symm_false {a b : Json} (h : keyEq a b = false) : keyEq b a = false := by
  by_contra hcon
  simp only [Bool.not_eq_false] at hcon
  rw [keyEq_symm hcon] at h
  exact absurd h (by simp)

theorem keyEq_common {a b c : Json} (h1 : keyEq a c = true) (h2 : keyEq b c = true) :
    keyEq a b = true := by
  cases a <;> cases b <;> cases c <;> simp_all [keyEq, beq_iff_eq]

theorem buildFromList_of_keyed (c : Cache) : ∀ acc : Cache,
    (∀ kv ∈ c, rowKey kv.2 = some kv.1) →
    (∀ kv ∈ c, ∀ kv2 ∈ acc, keyEq kv.1 kv2.1 = false) →
    List.Pairwise (fun a b => keyEq a.1 b.1 = false) c →
    buildFromList acc (c.map Prod.snd) = some (acc ++ c) := by
  induction c with
  | nil => intro acc _ _ _; simp [buildFromList]
  | cons kv rest ih =>
    intro acc h1 h2 h3
    have hk := h1 kv (by simp)
    simp only [List.map_cons, buildFromList, hk]
    rw [insertJ_of_not_mem (fun kv2 hkv2 => h2 kv (by simp) kv2 hkv2) kv.2]
    have hpair := List.pairwise_cons.mp h3
    have hstep := ih (acc ++ [(kv.1, kv.2)])
      (fun kv2 h => h1 kv2 (by simp [h]))
      (by
        intro kv2 hkv2 kv3 hkv3
        rcases List.mem_append.mp hkv3 with hin | hin
        · exact h2 kv2 (by simp [hkv2]) kv3 hin
        · rcases List.mem_singleton.mp hin with rfl
          exact keyEq_symm_false (hpair.1 kv2 hkv2))
      hpair.2
    simpa using hstep

/-- Counterexample to claim C2 as stated: a legacy flat-map whose key
differs from its value's uid field loads to a cache that save-then-reload
re-keys, so the uid-to-profile mapping is not reproduced. -/
theorem c2_counterexample :
    reload (DiskState.doc legacyDoc) = some legacyCache ∧
    reload (DiskState.doc (save legacyCache)) = some [(Json.str "7", legacyProfile)] ∧
    ([(Json.str "7", legacyProfile)] : Cache) ≠ legacyCache := by
  refine ⟨rfl, rfl, ?_⟩
  intro h
  injection h with h1 _
  have h2 := congrArg Prod.fst h1
  injection h2 with h3
  exact absurd h3 (by decide)

/-- Claim C2 (amended): save followed by reload reproduces the cache exactly
whenever every cache key is the uid field of its profile object (with keys
pairwise distinct, as a Python dict guarantees).  Canonical loads and every
mutating operation establish that key shape; a legacy flat-map load need not
(see c2_counterexample), which is the one case the original claim got
wrong. -/
theorem c2_amended_round_trip (c : Cache)
    (hdup : List.Pairwise (fun a b => keyEq a.1 b.1 = false) c)
    (huid : ∀ kv ∈ c, ∃ kvs, kv.2 = Json.obj kvs ∧
      lookupField "uid" kvs = some kv.1 ∧ hashable kv.1 = true) :
    reload (DiskState.doc (save c)) = some c := by
  have h1 : ∀ kv ∈ c, rowKey kv.2 = some kv.1 := by
    intro kv hkv
    obtain ⟨kvs, he, hl, hh⟩ := huid kv hkv
    rw [he]
    simp [rowKey, hl, hh]
  have h2 := buildFromList_of_keyed c [] h1 (by simp) hdup
  show buildFromList [] (c.map Prod.snd) = some c
  simpa using h2

/-- Witness for c2_amended_round_trip at a concrete canonical cache. -/
theorem c2_witness : reload (DiskState.doc (save w2cache)) = some w2cache :=
  c2_amended_round_trip w2cache (by simp [w2cache])
    (by
      intro kv hkv
      rw [List.mem_singleton.mp hkv]
      exact ⟨_, rfl, rfl, rfl⟩)

/-!  Update-frame machinery for claim C7.  -/

theorem lookupJ_updateAt_self {k : Json} {c : Cache} {p : Json}
    (h : lookupJ k c = some p) (f : Json → Json) :
    lookupJ k (updateAt k f c) = some (f p) := by
  induction c with
  | nil => simp [lookupJ] at h
  | cons kv rest ih =>
    by_cases hk : keyEq k kv.1 = true
    · simp only [lookupJ, hk, if_true] at h
      injection h with h
      subst h
      simp [updateAt, hk, lookupJ]
    · simp only [Bool.not_eq_true] at hk
      simp only [lookupJ, hk, Bool.false_eq_true, if_false] at h
      simp [updateAt, hk, lookupJ, ih h]

theorem lookupJ_updateAt_other {k k2 : Json} (hne : keyEq k2 k = false)
    (f : Json → Json) (c : Cache) :
    lookupJ k2 (updateAt k f c) = lookupJ k2 c := by
  induction c with
  | nil => rfl
  | cons kv rest ih =>
    by_cases hk : keyEq k kv.1 = true
    · have hk2 : keyEq k2 kv.1 = false := by
        by_contra hcon
        simp only [Bool.not_eq_false] at hcon
        rw [keyEq_common hcon hk] at hne
        exact absurd hne (by simp)
      simp [updateAt, hk, lookupJ, hk2]
    · simp only [Bool.not_eq_true] at hk
      simp [updateAt, hk, lookupJ, ih]

theorem lookupField_setEntry_self (k : String) (v : Json) (l : List (String × Json)) :
    lookupField k (setEntry k v l) = some v := by
  induction l with
  | nil => simp [setEntry, lookupField]
  | cons kv rest ih =>
    by_cases h : kv.1 = k
    · simp [setEntry, h, lookupField]
    · simp [setEntry, h, lookupField, ih]

theorem lookupField_setEntry_other {k k2 : String} (h : k2 ≠ k) (v : Json)
    (l : List (String × Json)) :
    lookupField k2 (setEntry k v l) = lookupField k2 l := by
  induction l with
  | nil => simp [setEntry, lookupField, Ne.symm h]
  | cons kv rest ih =>
    by_cases hh : kv.1 = k
    · simp [setEntry, hh, lookupField, Ne.symm h]
    · simp [setEntry, hh, lookupField, ih]

theorem applyOpt_falsy {v : Option String} (h : truthy v = false)
    (f : String) (uid : String) (c : Cache) : applyOpt f v uid c = c := by
  cases v with
  | none => rfl
  | some s =>
    simp only [truthy, Bool.not_eq_false', decide_eq_true_eq] at h
    simp [applyOpt, h]

theorem applyOpt_spec (f : String) (v : Option String) (uid : String) (cc : Cache)
    (kvsc : List (String × Json)) (h : lookupJ (Json.str uid) cc = some (Json.obj kvsc)) :
    ∃ kvs2, lookupJ (Json.str uid) (applyOpt f v uid cc) = some (Json.obj kvs2) ∧
      (∀ k2, keyEq k2 (Json.str uid) = false →
        lookupJ k2 (applyOpt f v uid cc) = lookupJ k2 cc) ∧
      (∀ f2, f2 ≠ f → lookupField f2 kvs2 = lookupField f2 kvsc) ∧
      (∀ s, v = some s → s ≠ "" → lookupField f kvs2 = some (Json.str s)) ∧
      (truthy v = false → lookupField f kvs2 = lookupField f kvsc) := by
  cases v with
  | none =>
    exact ⟨kvsc, h, fun _ _ => rfl, fun _ _ => rfl,
      fun s hs => Option.noConfusion hs, fun _ => rfl⟩
  | some s =>
    by_cases hs : s = ""
    · subst hs
      refine ⟨kvsc, ?_, fun _ _ => rfl, fun _ _ => rfl, ?_, fun _ => rfl⟩
      · simpa [applyOpt] using h
      · intro s2 hseq hne
        injection hseq with hseq
        exact absurd hseq.symm hne
    · have he : applyOpt f (some s) uid cc
          = updateAt (Json.str uid) (setField f (Json.str s)) cc := by
        simp [applyOpt, hs]
      refine ⟨setEntry f (Json.str s) kvsc, ?_, ?_, ?_, ?_, ?_⟩
      · rw [he]
        have h2 := lookupJ_updateAt_self h (setField f (Json.str s))
        simpa [setField] using h2
      · intro k2 hk2
        rw [he]
        exact lookupJ_updateAt_other hk2 _ _
      · intro f2 hf2
        exact lookupField_setEntry_other hf2 _ _
      · intro s2 hseq _
        injection hseq with hseq
        subst hseq
        exact lookupField_setEntry_self _ _ _
      · intro ht
        simp [truthy, hs] at ht

/-- Claim C7: update_streamer_info is a no-op with no persistence write when
the uid is absent or neither field argument is truthy; when the uid is
present and at least one field argument is truthy, exactly one persistence
write occurs, every other cache entry is unchanged, and the profile for the
uid keeps every field other than the assigned ones — in particular uid and
created_at — while a truthy name or color argument is stored verbatim.
Per the source's truthiness test, an argument counts as provided exactly
when it is a non-empty string (see claim C10 for the empty string). -/
theorem c7_update_frame (c : Cache) (uid : String) (nm co : Option String) :
    (lookupJ (Json.str uid) c = none → update_streamer_info c uid nm co = (c, 0)) ∧
    (truthy nm = false → truthy co = false → update_streamer_info c uid nm co = (c, 0)) ∧
    (∀ kvs, lookupJ (Json.str uid) c = some (Json.obj kvs) →
      truthy nm = true ∨ truthy co = true →
      (update_streamer_info c uid nm co).2 = 1 ∧
      (∀ k2, keyEq k2 (Json.str uid) = false →
        lookupJ k2 (update_streamer_info c uid nm co).1 = lookupJ k2 c) ∧
      (∃ kvs2,
        lookupJ (Json.str uid) (update_streamer_info c uid nm co).1
          = some (Json.obj kvs2) ∧
        (∀ f2, f2 ≠ "name" → f2 ≠ "color" → lookupField f2 kvs2 = lookupField f2 kvs) ∧
        (∀ s, nm = some s → s ≠ "" → lookupField "name" kvs2 = some (Json.str s)) ∧
        (truthy nm = false → lookupField "name" kvs2 = lookupField "name" kvs) ∧
        (∀ s, co = some s → s ≠ "" → lookupField "color" kvs2 = some (Json.str s)) ∧
        (truthy co = false → lookupField "color" kvs2 = lookupField "color" kvs))) := by
  refine ⟨?_, ?_, ?_⟩
  · intro h
    simp [update_streamer_info, h]
  · intro h1 h2
    cases hc : lookupJ (Json.str uid) c with
    | none => simp [update_streamer_info, hc]
    | some p => simp [update_streamer_info, hc, applyOpt_falsy h1, applyOpt_falsy h2, h1, h2]
  · intro kvs hp hor
    have e1 : (update_streamer_info c uid nm co).1
        = applyOpt "color" co uid (applyOpt "name" nm uid c) := by
      simp [update_streamer_info, hp]
    have e2 : (update_streamer_info c uid nm co).2
        = if truthy nm || truthy co then 1 else 0 := by
      simp [update_streamer_info, hp]
    obtain ⟨kvs1, ha1, hb1, hc1, hd1, heo1⟩ := applyOpt_spec "name" nm uid c kvs hp
    obtain ⟨kvs2, ha2, hb2, hc2, hd2, heo2⟩ :=
      applyOpt_spec "color" co uid (applyOpt "name" nm uid c) kvs1 ha1
    refine ⟨?_, ?_, kvs2, ?_, ?_, ?_, ?_, hd2, ?_⟩
    · rw [e2]
      rcases hor with h | h <;> simp [h]
    · intro k2 hk2
      rw [e1, hb2 k2 hk2, hb1 k2 hk2]
    · rw [e1]
      exact ha2
    · intro f2 hn hco
      rw [hc2 f2 hco, hc1 f2 hn]
    · intro s hseq hsne
      rw [hc2 "name" (by decide)]
      exact hd1 s hseq hsne
    · intro ht
      rw [hc2 "name" (by decide)]
      exact heo1 ht
    · intro ht
      rw [heo2 ht]
      exact hc1 "color" (by decide)

/-- Witness for c7_update_frame: updating the name of a present uid performs
exactly one persistence write. -/
theorem c7_witness : (update_streamer_info w7cache "1" (some "b") none).2 = 1 :=
  ((c7_update_frame w7cache "1" (some "b") none).2.2
    [("name", Json.str "a"), ("uid", Json.str "1"),
     ("color", Json.str "#FF6B6B"), ("created_at", Json.str "t")]
    rfl (Or.inl rfl)).1

/-!  Filename-grammar machinery for claim C4.  -/

theorem digitSpan_append {ds : List Char} (hds : ∀ c ∈ ds, c.isDigit = true)
    {c : Char} (hc : c.isDigit = false) (r : List Char) :
    digitSpan (ds ++ c :: r) = (ds, c :: r) := by
  induction ds with
  | nil => simp [digitSpan, hc]
  | cons a as ih =>
    have ha := hds a (by simp)
    simp [digitSpan, ha, ih (fun x hx => hds x (by simp [hx]))]

theorem matchLog_complete {u y m d : List Char}
    (hu : u ≠ []) (hud : ∀ c ∈ u, c.isDigit = true)
    (hy : y.length = 4) (hyd : ∀ c ∈ y, c.isDigit = true)
    (hm : m.length = 1 ∨ m.length = 2) (hmd : ∀ c ∈ m, c.isDigit = true)
    (hd : d.length = 1 ∨ d.length = 2) (hdd : ∀ c ∈ d, c.isDigit = true) :
    matchLog (u ++ '_' :: (y ++ '-' :: (m ++ '-' :: (d ++ ['.', 'l', 'o', 'g']))))
      = some (u, y, m, d) := by
  have s1 := digitSpan_append hud (c := '_') (by decide)
    (y ++ '-' :: (m ++ '-' :: (d ++ ['.', 'l', 'o', 'g'])))
  have s2 := digitSpan_append hyd (c := '-') (by decide)
    (m ++ '-' :: (d ++ ['.', 'l', 'o', 'g']))
  have s3 := digitSpan_append hmd (c := '-') (by decide) (d ++ ['.', 'l', 'o', 'g'])
  have s4 := digitSpan_append hdd (c := '.') (by decide) ['l', 'o', 'g']
  have hext : List.map Char.toLower ['.', 'l', 'o', 'g'] = logExtChars := by decide
  rcases hm with hm | hm <;> rcases hd with hd | hd <;>
    simp [matchLog, s1, s2, s3, s4, hy, hm, hd, extMatches, hu, hext]

theorem matchCsv_complete {u y m : List Char}
    (hu : u ≠ []) (hud : ∀ c ∈ u, c.isDigit = true)
    (hy : y.length = 4) (hyd : ∀ c ∈ y, c.isDigit = true)
    (hm : m.length = 1 ∨ m.length = 2) (hmd : ∀ c ∈ m, c.isDigit = true) :
    matchCsv (u ++ '_' :: (y ++ '-' :: (m ++ ['.', 'c', 's', 'v'])))
      = some (u, y, m) := by
  have s1 := digitSpan_append hud (c := '_') (by decide)
    (y ++ '-' :: (m ++ ['.', 'c', 's', 'v']))
  have s2 := digitSpan_append hyd (c := '-') (by decide) (m ++ ['.', 'c', 's', 'v'])
  have s3 := digitSpan_append hmd (c := '.') (by decide) ['c', 's', 'v']
  have hext : List.map Char.toLower ['.', 'c', 's', 'v'] = csvExtChars := by decide
  rcases hm with hm | hm <;>
    simp [matchCsv, s1, s2, s3, hy, hm, extMatches, hu, hext]

theorem matchLog_csv_shape {u y m : List Char}
    (hud : ∀ c ∈ u, c.isDigit = true)
    (hyd : ∀ c ∈ y, c.isDigit = true)
    (hmd : ∀ c ∈ m, c.isDigit = true) :
    matchLog (u ++ '_' :: (y ++ '-' :: (m ++ ['.', 'c', 's', 'v']))) = none := by
  have s1 := digitSpan_append hud (c := '_') (by decide)
    (y ++ '-' :: (m ++ ['.', 'c', 's', 'v']))
  have s2 := digitSpan_append hyd (c := '-') (by decide) (m ++ ['.', 'c', 's', 'v'])
  have s3 := digitSpan_append hmd (c := '.') (by decide) ['c', 's', 'v']
  simp [matchLog, s1, s2, s3]

/-- Claim C4: filename classification is padding-insensitive and performs no
calendar validation.  Every digits-underscore-date dot-log name classifies
as a log record keeping the uid digits exactly as written and zero-padding
the date to four-two-two digits; every digits-underscore-year-month dot-csv
name classifies as a csv record with a zero-padded year-month date; the
spec's concrete examples behave as stated, including the non-calendar month
13 and the rejected non-digit uid; and the classification outcome is what
the scan record is built from, a non-matching name yielding no record. -/
theorem c4_classification :
    (∀ u y m d : List Char,
      u ≠ [] → (∀ c ∈ u, c.isDigit = true) →
      y.length = 4 → (∀ c ∈ y, c.isDigit = true) →
      (m.length = 1 ∨ m.length = 2) → (∀ c ∈ m, c.isDigit = true) →
      (d.length = 1 ∨ d.length = 2) → (∀ c ∈ d, c.isDigit = true) →
      classifyName (String.mk (u ++ '_' :: (y ++ '-' :: (m ++ '-' :: (d ++ ['.', 'l', 'o', 'g'])))))
        = some ("log", String.mk u,
            String.mk y ++ "-" ++ pad2 (digitsToNat m) ++ "-" ++ pad2 (digitsToNat d))) ∧
    (∀ u y m : List Char,
      u ≠ [] → (∀ c ∈ u, c.isDigit = true) →
      y.length = 4 → (∀ c ∈ y, c.isDigit = true) →
      (m.length = 1 ∨ m.length = 2) → (∀ c ∈ m, c.isDigit = true) →
      classifyName (String.mk (u ++ '_' :: (y ++ '-' :: (m ++ ['.', 'c', 's', 'v']))))
        = some ("csv", String.mk u, String.mk y ++ "-" ++ pad2 (digitsToNat m))) ∧
    (∀ pth nm t uid dt (sz : Nat), classifyName nm = some (t, uid, dt) →
      toMeta pth nm sz = some (FileMeta.mk pth nm t uid dt sz)) ∧
    (∀ pth nm (sz : Nat), classifyName nm = none → toMeta pth nm sz = none) ∧
    classifyName "123_2025-5-1.log" = some ("log", "123", "2025-05-01") ∧
    classifyName "123_2025-05-01.log" = some ("log", "123", "2025-05-01") ∧
    classifyName "123_2025-5.csv" = some ("csv", "123", "2025-05") ∧
    classifyName "123_2025-13-01.log" = some ("log", "123", "2025-13-01") ∧
    classifyName "abc_2025-05-01.log" = none := by
  refine ⟨?_, ?_, ?_, ?_, by decide, by decide, by decide, by decide, by decide⟩
  · intro u y m d hu hud hy hyd hm hmd hd hdd
    have hl := matchLog_complete hu hud hy hyd hm hmd hd hdd
    simp [classifyName, classifyCore, hl]
  · intro u y m hu hud hy hyd hm hmd
    have hc := matchCsv_complete hu hud hy hyd hm hmd
    have hn := matchLog_csv_shape hud hyd hmd
    simp [classifyName, classifyCore, hc, hn]
  · intro pth nm t uid dt sz h
    simp [toMeta, h]
  · intro pth nm sz h
    simp [toMeta, h]

/-- Witness for c4_classification: the log grammar conjunct applied to a
concrete unpadded filename. -/
theorem c4_witness :
    classifyName (String.mk (['7'] ++ '_' :: (['2', '0', '2', '4'] ++ '-' ::
        (['3'] ++ '-' :: (['9'] ++ ['.', 'l', 'o', 'g'])))))
      = some ("log", String.mk ['7'],
          String.mk ['2', '0', '2', '4'] ++ "-" ++ pad2 (digitsToNat ['3'])
            ++ "-" ++ pad2 (digitsToNat ['9'])) :=
  c4_classification.1 ['7'] ['2', '0', '2', '4'] ['3'] ['9']
    (by decide) (by decide) (by decide) (by decide)
    (by decide) (by decide) (by decide) (by decide)

/-!  Ordering machinery for claim C8.  -/

theorem charsLe_total (a : List Char) : ∀ b, charsLe a b = true ∨ charsLe b a = true := by
  induction a with
  | nil => intro b; left; rfl
  | cons x xs ih =>
    intro b
    cases b with
    | nil => right; rfl
    | cons y ys =>
      by_cases h1 : x.toNat < y.toNat
      · left; simp [charsLe, h1]
      · by_cases h2 : y.toNat < x.toNat
        · right; simp [charsLe, h2]
        · rcases ih ys with h | h
          · left; simp [charsLe, h1, h2, h]
          · right; simp [charsLe, h1, h2, h]

theorem charsLe_trans : ∀ {a b c : List Char},
    charsLe a b = true → charsLe b c = true → charsLe a c = true := by
  intro a
  induction a with
  | nil => intro b c _ _; rfl
  | cons x xs ih =>
    intro b c h1 h2
    cases b with
    | nil => simp [charsLe] at h1
    | cons y ys =>
      cases c with
      | nil => simp [charsLe] at h2
      | cons z zs =>
        by_cases hxy : x.toNat < y.toNat
        · by_cases hyz : y.toNat < z.toNat
          · simp [charsLe, Nat.lt_trans hxy hyz]
          · by_cases hzy : z.toNat < y.toNat
            · simp [charsLe, hyz, hzy] at h2
            · have hyz2 : y.toNat = z.toNat :=
                Nat.le_antisymm (Nat.le_of_not_lt hzy) (Nat.le_of_not_lt hyz)
              simp [charsLe, hyz2 ▸ hxy]
        · by_cases hyx : y.toNat < x.toNat
          · simp [charsLe, hxy, hyx] at h1
          · have hxy2 : x.toNat = y.toNat :=
              Nat.le_antisymm (Nat.le_of_not_lt hyx) (Nat.le_of_not_lt hxy)
            simp only [charsLe, hxy, hyx, if_false] at h1
            by_cases hyz : y.toNat < z.toNat
            · simp [charsLe, hxy2 ▸ hyz]
            · by_cases hzy : z.toNat < y.toNat
              · simp [charsLe, hyz, hzy] at h2
              · have hyz2 : y.toNat = z.toNat :=
                  Nat.le_antisymm (Nat.le_of_not_lt hzy) (Nat.le_of_not_lt hyz)
                simp only [charsLe, hyz, hzy, if_false] at h2
                have hxz : x.toNat = z.toNat := hxy2.trans hyz2
                simp [charsLe, hxz, Nat.lt_irrefl, ih h1 h2]

theorem charsLe_antisymm : ∀ {a b : List Char},
    charsLe a b = true → charsLe b a = true → a = b := by
  intro a
  induction a with
  | nil =>
    intro b h1 h2
    cases b with
    | nil => rfl
    | cons y ys => simp [charsLe] at h2
  | cons x xs ih =>
    intro b h1 h2
    cases b with
    | nil => simp [charsLe] at h1
    | cons y ys =>
      by_cases hxy : x.toNat < y.toNat
      · simp [charsLe, Nat.lt_asymm hxy, hxy] at h2
      · by_cases hyx : y.toNat < x.toNat
        · simp [charsLe, hxy, hyx] at h1
        · have hx : x = y := Char.eq_of_val_eq
            (UInt32.toNat.inj (Nat.le_antisymm (Nat.le_of_not_lt hyx) (Nat.le_of_not_lt hxy)))
          subst hx
          simp only [charsLe, Nat.lt_irrefl, if_false] at h1 h2
          rw [ih h1 h2]

theorem strEqOfData {s t : String} (h : s.data = t.data) : s = t := by
  cases s
  cases t
  simp_all

theorem nameLe_trans {x y z : FileMeta}
    (h1 : nameLe x y = true) (h2 : nameLe y z = true) : nameLe x z = true :=
  charsLe_trans h1 h2

theorem nameLe_antisymm {x y : FileMeta}
    (h1 : nameLe x y = true) (h2 : nameLe y x = true) : x.file_name = y.file_name :=
  strEqOfData (charsLe_antisymm h1 h2)

theorem mem_insertSorted {a x : FileMeta} : ∀ {l : List FileMeta},
    a ∈ insertSorted x l ↔ a = x ∨ a ∈ l := by
  intro l
  induction l with
  | nil => simp [insertSorted]
  | cons y ys ih =>
    by_cases h : nameLe y x = true
    · simp only [insertSorted, h, if_true, List.mem_cons, ih]
      tauto
    · simp [insertSorted, h, List.mem_cons]

theorem perm_insertSorted (x : FileMeta) : ∀ l, (insertSorted x l).Perm (x :: l) := by
  intro l
  induction l with
  | nil => exact List.Perm.refl _
  | cons y ys ih =>
    by_cases h : nameLe y x = true
    · simp only [insertSorted, h, if_true]
      exact (ih.cons y).trans (List.Perm.swap x y ys)
    · simp [insertSorted, h]

theorem perm_sortByName : ∀ l : List FileMeta, (sortByName l).Perm l := by
  intro l
  induction l with
  | nil => exact List.Perm.refl _
  | cons x xs ih => exact (perm_insertSorted x (sortByName xs)).trans (ih.cons x)

theorem pairwise_insertSorted {x : FileMeta} : ∀ {l : List FileMeta},
    List.Pairwise (fun a b => nameLe a b = true) l →
    List.Pairwise (fun a b => nameLe a b = true) (insertSorted x l) := by
  intro l
  induction l with
  | nil => simp [insertSorted]
  | cons y ys ih =>
    intro h
    rcases List.pairwise_cons.mp h with ⟨hy, hys⟩
    by_cases hxy : nameLe y x = true
    · simp only [insertSorted, hxy, if_true]
      refine List.pairwise_cons.mpr ⟨?_, ih hys⟩
      intro b hb
      rcases mem_insertSorted.mp hb with rfl | hb
      · exact hxy
      · exact hy b hb
    · have hx : nameLe x y = true := (charsLe_total _ _).resolve_right hxy
      simp only [insertSorted, hxy, if_false]
      refine List.pairwise_cons.mpr ⟨?_, h⟩
      intro b hb
      rcases List.mem_cons.mp hb with rfl | hb
      · exact hx
      · exact nameLe_trans hx (hy b hb)

theorem sorted_sortByName : ∀ l : List FileMeta,
    List.Pairwise (fun a b => nameLe a b = true) (sortByName l) := by
  intro l
  induction l with
  | nil => simp [sortByName]
  | cons x xs ih => exact pairwise_insertSorted ih

theorem sorted_perm_nodup_eq : ∀ {l1 l2 : List FileMeta},
    List.Pairwise (fun a b => nameLe a b = true) l1 →
    List.Pairwise (fun a b => nameLe a b = true) l2 →
    (l1.map FileMeta.file_name).Nodup →
    l1.Perm l2 → l1 = l2 := by
  intro l1
  induction l1 with
  | nil =>
    intro l2 _ _ _ hp
    exact hp.nil_eq
  | cons a t ih =>
    intro l2 h1 h2 hnd hp
    cases l2 with
    | nil => exact absurd hp.symm.nil_eq (by simp)
    | cons b t2 =>
      rcases List.pairwise_cons.mp h1 with ⟨ha1, ht1⟩
      rcases List.pairwise_cons.mp h2 with ⟨hb2, ht2⟩
      have hab : a ∈ b :: t2 := hp.mem_iff.mp (by simp)
      have hba : b ∈ a :: t := hp.mem_iff.mpr (by simp)
      have hnameq : a.file_name = b.file_name := by
        rcases List.mem_cons.mp hab with heq | hmem
        · rw [heq]
        · rcases List.mem_cons.mp hba with heq | hmem2
          · rw [heq]
          · exact nameLe_antisymm (ha1 b hmem2) (hb2 a hmem)
      have hae : a = b := by
        rcases List.mem_cons.mp hba with heq | hmem2
        · exact heq.symm
        · exfalso
          have hmap : a.file_name ∈ t.map FileMeta.file_name := by
            rw [hnameq]
            exact List.mem_map_of_mem _ hmem2
          exact (List.nodup_cons.mp hnd).1 hmap
      subst hae
      rw [ih ht1 ht2 (List.nodup_cons.mp hnd).2 hp.cons_inv]

/-!  Characterization of scan for claim C8.  -/

theorem scanGather_eq (es : List FSEntry) :
    scanGather es = if es.all (fun e => e.stat.isSome) = true
      then Except.ok (es.filterMap entryMeta) else Except.error () := by
  induction es with
  | nil => simp [scanGather]
  | cons e rest ih =>
    cases hs : e.stat with
    | none => simp [scanGather, parse_file, hs]
    | some sz =>
      simp only [scanGather, parse_file, hs]
      by_cases hr : rest.all (fun e => e.stat.isSome) = true
      · cases hm : toMeta e.path e.name sz <;>
          simp [ih, hr, entryMeta, hs, hm, List.filterMap_cons]
      · simp [ih, hr, hs]

theorem scan_eq (es : List FSEntry) :
    scan es = if es.all (fun e => e.stat.isSome) = true
      then Except.ok (sortByName (es.filterMap entryMeta)) else Except.error () := by
  by_cases h : es.all (fun e => e.stat.isSome) = true
  · simp [scan, scanGather_eq, h]
  · simp [scan, scanGather_eq, h]

theorem all_stats_perm {es es2 : List FSEntry} (hp : es.Perm es2)
    (h : es.all (fun e => e.stat.isSome) = true) :
    es2.all (fun e => e.stat.isSome) = true := by
  rw [List.all_eq_true] at h ⊢
  intro e he
  exact h e (hp.mem_iff.mpr he)

/-- Claim C8: every successful scan result is sorted by file name under the
code-point string order; when the parsed records carry pairwise-distinct
file names the result is independent of the traversal order (any
permutation of the visited entries gives the identical sequence); and the
three-file example — one valid log, one valid csv, one unrelated file,
visited out of order — yields exactly the two records, sorted by
filename. -/
theorem c8_scan_sorted_by_name :
    (∀ es ms, scan es = Except.ok ms →
      List.Pairwise (fun a b => nameLe a b = true) ms) ∧
    (∀ es es2 ms ms2, es.Perm es2 →
      scan es = Except.ok ms → scan es2 = Except.ok ms2 →
      (ms.map FileMeta.file_name).Nodup → ms = ms2) ∧
    scan c8entries = Except.ok [c8metaLog, c8metaCsv] := by
  refine ⟨?_, ?_, rfl⟩
  · intro es ms h
    rw [scan_eq] at h
    by_cases hall : es.all (fun e => e.stat.isSome) = true
    · rw [if_pos hall] at h
      injection h with h
      rw [← h]
      exact sorted_sortByName _
    · rw [if_neg hall] at h
      exact absurd h (by simp)
  · intro es es2 ms ms2 hp h1 h2 hnd
    rw [scan_eq] at h1 h2
    by_cases hall : es.all (fun e => e.stat.isSome) = true
    · have hall2 := all_stats_perm hp hall
      rw [if_pos hall] at h1
      rw [if_pos hall2] at h2
      injection h1 with h1
      injection h2 with h2
      subst h1
      subst h2
      have hperm : (sortByName (es.filterMap entryMeta)).Perm
          (sortByName (es2.filterMap entryMeta)) :=
        (perm_sortByName _).trans ((hp.filterMap entryMeta).trans (perm_sortByName _).symm)
      exact sorted_perm_nodup_eq (sorted_sortByName _) (sorted_sortByName _) hnd hperm
    · rw [if_neg hall] at h1
      exact absurd h1 (by simp)

/-- Witness for c8_scan_sorted_by_name: the sortedness conjunct applied to
the concrete three-file scan. -/
theorem c8_witness :
    List.Pairwise (fun a b => nameLe a b = true) [c8metaLog, c8metaCsv] :=
  c8_scan_sorted_by_name.1 c8entries [c8metaLog, c8metaCsv] rfl

end Camerata
